import Mathlib

set_option maxHeartbeats 1600000

namespace Enderpy

/-! Verification development for a recursive-descent parser of a
Python-family language. The parser core is translated from the
source file `parser.rs`; the token source (lexer), the AST type
declarations and the small token-classification helpers live in
sibling files that are not part of the translated core, so they are
modelled from the specification where noted. Recursion is made
explicit with a fuel parameter; running out of fuel is reported
through a distinguished error that no theorem below treats as a
parser behaviour. -/

/-- Token kinds delivered by the token source. Modelled from the spec:
the tokenizer classifies raw source text into typed tokens with
byte-offset spans. Naming follows the source: `LeftBrace` is the
square bracket `[`, `LeftBracket` is the curly brace, `LeftParen`
the parenthesis. -/
inductive Kind where
  | Identifier | Integer | ImaginaryInteger | Bytes | StringLiteral
  | RawString | RawBytes | FStringStart | FStringMiddle | FStringEnd
  | True | False | None
  | Assign | Walrus | Colon | Comma | Dot
  | LeftParen | RightParen | LeftBrace | RightBrace
  | LeftBracket | RightBracket
  | Mul | Pow | Div | IntDiv | Mod | MatrixMul | Plus | Minus
  | LeftShift | RightShift | BitOr | BitXor | BitAnd | BitNot
  | Less | Greater | LessEq | GreaterEq | Eq | NotEq
  | In | Is | Not | And | Or
  | If | Else | For | Async | Await | Lambda | Yield | From
  | WhiteSpace | NewLine | Indent | Dedent | Eof
  deriving DecidableEq, Repr

/-- Marker string of a token kind, for diagnostics. Modelled from the
spec: each failure carries renderable expected/found markers
(`Kind::to_str` lives with the external token definitions). -/
def kindStr : Kind → String
  | .Identifier => "identifier" | .Integer => "integer"
  | .ImaginaryInteger => "imaginary integer" | .Bytes => "bytes"
  | .StringLiteral => "string" | .RawString => "raw string"
  | .RawBytes => "raw bytes" | .FStringStart => "fstring start"
  | .FStringMiddle => "fstring middle" | .FStringEnd => "fstring end"
  | .True => "true" | .False => "false" | .None => "none"
  | .Assign => "=" | .Walrus => ":=" | .Colon => ":" | .Comma => ","
  | .Dot => "." | .LeftParen => "(" | .RightParen => ")"
  | .LeftBrace => "[" | .RightBrace => "]"
  | .LeftBracket => "brace open" | .RightBracket => "brace close"
  | .Mul => "*" | .Pow => "**" | .Div => "/" | .IntDiv => "//"
  | .Mod => "%" | .MatrixMul => "@" | .Plus => "+" | .Minus => "-"
  | .LeftShift => "<<" | .RightShift => ">>" | .BitOr => "|"
  | .BitXor => "^" | .BitAnd => "&" | .BitNot => "~"
  | .Less => "<" | .Greater => ">" | .LessEq => "<=" | .GreaterEq => ">="
  | .Eq => "==" | .NotEq => "!=" | .In => "in" | .Is => "is"
  | .Not => "not" | .And => "and" | .Or => "or"
  | .If => "if" | .Else => "else" | .For => "for" | .Async => "async"
  | .Await => "await" | .Lambda => "lambda" | .Yield => "yield"
  | .From => "from" | .WhiteSpace => "whitespace" | .NewLine => "newline"
  | .Indent => "indent" | .Dedent => "dedent" | .Eof => "eof"

/-- A token: kind, literal text, half-open byte span. The source field
`end` is spelled `endOff` because `end` is reserved here. -/
structure Token where
  kind : Kind
  value : String
  start : Nat
  endOff : Nat
  deriving DecidableEq, Repr

/-- A positioned AST node: half-open byte range into the source buffer. -/
structure Node where
  start : Nat
  endOff : Nat
  deriving DecidableEq, Repr

inductive BooleanOperator where
  | And | Or
  deriving DecidableEq, Repr

inductive UnaryOperator where
  | Not | UAdd | USub | Invert
  deriving DecidableEq, Repr

inductive BinaryOperator where
  | Add | Sub | Mult | Div | FloorDiv | Mod | Pow | MatMult
  | LShift | RShift | BitOr | BitXor | BitAnd
  deriving DecidableEq, Repr

inductive ComparisonOperator where
  | Lt | Gt | LtE | GtE | Eq | NotEq | In | NotIn | Is | IsNot
  deriving DecidableEq, Repr

/-- Constant values. Modelled from the spec data model: Int is kept as
text; Bytes is kept as the decoded byte text. -/
inductive ConstantValue where
  | None
  | Bool (b : Bool)
  | Str (s : String)
  | Bytes (s : String)
  | Int (s : String)
  | Complex (real : String) (imaginary : String)
  deriving DecidableEq, Repr

mutual

/-- Expression variants. Modelled from the spec data model and the
constructor usages in the translated parser core. -/
inductive Expression where
  | Name (node : Node) (id : String)
  | Constant (node : Node) (value : ConstantValue)
  | List (node : Node) (elements : List Expression)
  | Tuple (node : Node) (elements : List Expression)
  | Dict (node : Node) (keys : List Expression) (values : List Expression)
  | Set (node : Node) (elements : List Expression)
  | BoolOp (node : Node) (op : BooleanOperator) (values : List Expression)
  | UnaryOp (node : Node) (op : UnaryOperator) (operand : Expression)
  | BinOp (node : Node) (op : BinaryOperator) (left : Expression) (right : Expression)
  | NamedExpr (node : Node) (target : Expression) (value : Expression)
  | Yield (node : Node) (value : Option Expression)
  | YieldFrom (node : Node) (value : Expression)
  | Starred (node : Node) (value : Expression)
  | Generator (node : Node) (element : Expression) (generators : List Comprehension)
  | Compare (node : Node) (left : Expression) (ops : List ComparisonOperator)
      (comparators : List Expression)
  | Lambda (node : Node) (args : Arguments) (body : Expression)
  | IfExp (node : Node) (test : Expression) (body : Expression) (orelse : Expression)
  | Call (node : Node) (func : Expression) (args : List Expression)
      (keywords : List Keyword) (starargs : Option Expression) (kwargs : Option Expression)
  | Attribute (node : Node) (value : Expression) (attr : String)
  | Subscript (node : Node) (value : Expression) (slice : Expression)
  | Slice (node : Node) (lower : Option Expression) (upper : Option Expression)
      (step : Option Expression)
  | Await (node : Node) (value : Expression)
  | JoinedStr (node : Node) (values : List Expression)

/-- One comprehension clause: target, iterable, filters, async marker. -/
inductive Comprehension where
  | mk (node : Node) (target : Expression) (iter : Expression)
      (ifs : List Expression) (is_async : Bool)

/-- One parameter: name and optional type annotation. -/
inductive Arg where
  | mk (node : Node) (arg : String) (annot : Option Expression)

/-- Parameter list record. -/
inductive Arguments where
  | mk (node : Node) (posonlyargs : List Arg) (args : List Arg)
      (vararg : Option Arg) (kwonlyargs : List Arg)
      (kw_defaults : List Expression) (kwarg : Option Arg)
      (defaults : List Expression)

/-- A call keyword argument; `arg = none` encodes a double-star unpack. -/
inductive Keyword where
  | mk (node : Node) (arg : Option String) (value : Expression)

end

/-- Statements: expression statements and simple assignment. -/
inductive Statement where
  | ExpressionStatement (e : Expression)
  | AssignStatement (node : Node) (targets : List Expression) (value : Expression)

/-- The module root returned by the parse entry point. -/
structure Module where
  node : Node
  body : List Statement

/-- Parse diagnostics. Modelled from the spec error taxonomy: an
expected/found pair, an unexpected token, or a named structural
violation, each with a span. -/
inductive Diagnostic where
  | ExpectToken (wanted : String) (found : String) (range : Node)
  | UnexpectedToken (found : String) (range : Node)
  | InvalidSyntax (msg : String) (range : Node)
  deriving DecidableEq, Repr

/-- Parser outcome channel: a recoverable diagnostic, an aborting
process failure (the source's irrecoverable unwinding paths), or
fuel exhaustion of this embedding. -/
inductive PErr where
  | diag (d : Diagnostic)
  | panicMsg (msg : String)
  | outOfFuel
  deriving DecidableEq, Repr

/-- Parser cursor state: remaining token stream, end-of-stream offset,
current token, end offset of the previously consumed token, and the
two nesting counters. The token source is modelled from the spec as a
list of classified tokens followed by an endless end-of-file marker. -/
structure Parser where
  tokens : List Token
  eofPos : Nat
  cur_token : Token
  prev_token_end : Nat
  nested_expression_list : Nat
  nested_subscript : Nat
  deriving DecidableEq, Repr

/-- Result of running one parser action: value or error, in both cases
with the state as left behind (failures do not roll the cursor back). -/
inductive PResult (α : Type) where
  | ok (a : α) (s : Parser)
  | err (e : PErr) (s : Parser)

/-- The parser action monad: explicit state passing over `PResult`. -/
def PM (α : Type) : Type := Parser → PResult α

instance : Monad PM where
  pure a := fun s => .ok a s
  bind x f := fun s =>
    match x s with
    | .ok a s₂ => f a s₂
    | .err e s₂ => .err e s₂

/-- Read the whole state. -/
def getP : PM Parser := fun s => .ok s s

/-- Replace the whole state. -/
def setP (s₂ : Parser) : PM Unit := fun _ => .ok () s₂

/-- Fail with an error. -/
def throwP {α : Type} (e : PErr) : PM α := fun s => .err e s

/-- Run an action and reify its outcome, keeping the state it left. -/
def tryRes {α : Type} (x : PM α) : PM (Except PErr α) := fun s =>
  match x s with
  | .ok a s₂ => .ok (.ok a) s₂
  | .err e s₂ => .ok (.error e) s₂

/-- The endless end-of-file token. -/
def eofToken (pos : Nat) : Token := ⟨.Eof, "", pos, pos⟩

/-- Token the source would deliver next after the current one. -/
def Parser.peekTok (s : Parser) : Token :=
  match s.tokens with
  | [] => eofToken s.eofPos
  | t :: _ => t

/-- Kind of the current token. -/
def cur_kind : PM Kind := fun s => .ok s.cur_token.kind s

/-- The current token. -/
def cur_tokenP : PM Token := fun s => .ok s.cur_token s

/-- One-token lookahead kind (the source delivers it without error in
this model). -/
def peek_kind : PM Kind := fun s => .ok s.peekTok.kind s

/-- Checks if the current index has token `Kind`. -/
def at_kind (k : Kind) : PM Bool := fun s =>
  .ok (decide (s.cur_token.kind = k)) s

/-- Move to the next token. -/
def advance : PM Unit := fun s =>
  match s.tokens with
  | [] => .ok () { s with
      prev_token_end := s.cur_token.endOff
      cur_token := eofToken s.eofPos
      tokens := [] }
  | t :: rest => .ok () { s with
      prev_token_end := s.cur_token.endOff
      cur_token := t
      tokens := rest }

/-- Advance if we are at `Kind`. -/
def bump (k : Kind) : PM Unit := do
  if (← at_kind k) then advance

/-- Advance any token. -/
def bump_any : PM Unit := advance

/-- Advance and return true if we are at `Kind`, false otherwise. -/
def eat (k : Kind) : PM Bool := do
  if (← at_kind k) then
    advance
    pure true
  else
    pure false

/-- Capture the start of a node: offset of the current token, end not
yet known. -/
def start_node : PM Node := fun s => .ok ⟨s.cur_token.start, 0⟩ s

/-- Close a node: its start plus the end offset of the previously
consumed token. -/
def finish_node (node : Node) : PM Node := fun s =>
  .ok ⟨node.start, s.prev_token_end⟩ s

/-- Consume the current token if it has the wanted kind, else fail with
an expected-token diagnostic without advancing. -/
def expect (k : Kind) : PM Unit := fun s =>
  if s.cur_token.kind = k then
    advance s
  else
    .err (.diag (.ExpectToken (kindStr k) (kindStr s.cur_token.kind)
      ⟨s.cur_token.start, s.prev_token_end⟩)) s

/-- Increment the aggregate-nesting counter. -/
def incNested : PM Unit := fun s =>
  .ok () { s with nested_expression_list := s.nested_expression_list + 1 }

/-- Decrement the aggregate-nesting counter. -/
def decNested : PM Unit := fun s =>
  .ok () { s with nested_expression_list := s.nested_expression_list - 1 }

/-- Atom-starting token kinds. Modelled from the spec: an atom is a
name, a literal (including string variants and interpolated-string
starts), a bracketed display opener, or a yield expression head. -/
def is_atom : Kind → Bool
  | .Identifier | .Integer | .ImaginaryInteger | .Bytes | .StringLiteral
  | .RawString | .RawBytes | .FStringStart | .True | .False | .None
  | .LeftBrace | .LeftBracket | .LeftParen | .Yield => true
  | _ => false

/-- String-like token kinds subject to literal concatenation.
Modelled from the spec. -/
def is_string : Kind → Bool
  | .StringLiteral | .RawString | .Bytes | .RawBytes | .FStringStart => true
  | _ => false

/-- Comparison operator starters. Modelled from the spec list of
comparison operators (`not` and `is` start the two-word forms). -/
def is_comparison_operator : Kind → Bool
  | .Less | .Greater | .LessEq | .GreaterEq | .Eq | .NotEq
  | .In | .Is | .Not => true
  | _ => false

/-- Binary arithmetic operators of the additive/multiplicative level.
Modelled from the spec precedence chain. -/
def is_bin_arithmetic_op : Kind → Bool
  | .Plus | .Minus | .Mul | .Div | .IntDiv | .Mod | .MatrixMul => true
  | _ => false

/-- Unary arithmetic operators. Modelled from the spec. -/
def is_unary_op : Kind → Bool
  | .Plus | .Minus | .BitNot => true
  | _ => false

/-- Map a unary operator token to the AST operator. Modelled from the
spec. -/
def map_unary_operator : Kind → UnaryOperator
  | .Minus => .USub
  | .Plus => .UAdd
  | .BitNot => .Invert
  | _ => .Not

/-- Shapes a starred item is allowed to unpack. Modelled from the spec:
the starred marker unpacks an iterable display or name. -/
def is_iterable : Expression → Bool
  | .List .. | .Tuple .. | .Set .. | .Dict .. | .Name .. => true
  | _ => false

/-- Shapes accepted after `await`. Modelled from the spec: `await` is
accepted only immediately before a primary. -/
def is_primary : Expression → Bool
  | .Name .. | .Constant .. | .Call .. | .Attribute .. | .Subscript ..
  | .List .. | .Tuple .. | .Set .. | .Dict .. | .Generator ..
  | .JoinedStr .. => true
  | _ => false

/-- Quote characters. Modelled from the spec string handling. -/
def is_quote_char (c : Char) : Bool := c = '"' || c = Char.ofNat 39

/-- Modelled from the spec: the parser strips the surrounding quote
markers of a string token (single or triple quoted); escape decoding
is the lexer's responsibility. -/
def extract_string_inside (s : String) : String :=
  let cs := s.data
  let strip :=
    match cs with
    | c₁ :: c₂ :: c₃ :: _ =>
      if is_quote_char c₁ && (c₁ == c₂) && (c₂ == c₃) && decide (6 ≤ cs.length)
      then 3 else 1
    | _ => 1
  ⟨(cs.drop strip).take (cs.length - 2 * strip)⟩

/-- Modelled from the spec: adjacent string-like literals merge into a
single constant; interpolated strings merge by concatenating their
ordered parts; a mismatched pair is a syntax error. -/
def concat_string_exprs : Expression → Expression → Except PErr Expression
  | .Constant n₁ (.Str s₁), .Constant n₂ (.Str s₂) =>
    .ok (.Constant ⟨n₁.start, n₂.endOff⟩ (.Str (s₁ ++ s₂)))
  | .Constant n₁ (.Bytes b₁), .Constant n₂ (.Bytes b₂) =>
    .ok (.Constant ⟨n₁.start, n₂.endOff⟩ (.Bytes (b₁ ++ b₂)))
  | .JoinedStr n₁ vs₁, .JoinedStr n₂ vs₂ =>
    .ok (.JoinedStr ⟨n₁.start, n₂.endOff⟩ (vs₁ ++ vs₂))
  | .JoinedStr n₁ vs₁, .Constant n₂ v =>
    .ok (.JoinedStr ⟨n₁.start, n₂.endOff⟩ (vs₁ ++ [.Constant n₂ v]))
  | .Constant n₁ v, .JoinedStr n₂ vs₂ =>
    .ok (.JoinedStr ⟨n₁.start, n₂.endOff⟩ (.Constant n₁ v :: vs₂))
  | _, _ =>
    .error (.diag (.InvalidSyntax "cannot concat string literals" ⟨0, 0⟩))

/-- Comparison operator parse: translated from the source; two-word
forms consume their first word inside the dispatch, error cases do
not consume, the success path ends with one unconditional advance. -/
def parse_comp_operator : PM ComparisonOperator := do
  let node ← start_node
  let k ← cur_kind
  let pk ← peek_kind
  let op? ← (match k with
    | .Less => pure (.ok .Lt)
    | .Greater => pure (.ok .Gt)
    | .LessEq => pure (.ok .LtE)
    | .GreaterEq => pure (.ok .GtE)
    | .Eq => pure (.ok .Eq)
    | .NotEq => pure (.ok .NotEq)
    | .In => pure (.ok .In)
    | .Is =>
      if pk = .Not then do
        bump_any
        pure (.ok .IsNot)
      else
        pure (.ok .Is)
    | .Not =>
      if pk = .In then do
        bump_any
        pure (.ok .NotIn)
      else do
        pure (.error (.diag (.UnexpectedToken (kindStr k) (← finish_node node))))
    | _ => do
      pure (.error (.diag (.UnexpectedToken (kindStr k) (← finish_node node)))) :
    PM (Except PErr ComparisonOperator))
  match op? with
  | .ok op => do
    bump_any
    pure op
  | .error e => throwP e

/-- Binary arithmetic operator parse: translated from the source; the
unconditional advance happens before the result (ok or error) is
returned. -/
def parse_bin_arithmetic_op : PM BinaryOperator := do
  let nd ← start_node
  let k ← cur_kind
  let op? : Except PErr BinaryOperator :=
    match k with
    | .Plus => .ok .Add
    | .Minus => .ok .Sub
    | .Mul => .ok .Mult
    | .Div => .ok .Div
    | .IntDiv => .ok .FloorDiv
    | .Mod => .ok .Mod
    | .Pow => .ok .Pow
    | .MatrixMul => .ok .MatMult
    | _ => .error (.diag (.UnexpectedToken (kindStr k) nd))
  bump_any
  match op? with
  | .ok op => pure op
  | .error e => throwP e

/-- True when the current token can start a plain parameter. -/
def is_def_parameter : PM Bool := fun s =>
  .ok (decide (s.cur_token.kind = .Identifier)) s

/-- Accumulator of the parameter-list loop, mirroring the source's
local mutable state. -/
structure ParamsAcc where
  seen_vararg : Bool := false
  seen_kwarg : Bool := false
  must_have_default : Bool := false
  posonlyargs : List Arg := []
  args : List Arg := []
  vararg : Option Arg := none
  kwarg : Option Arg := none
  kwonlyargs : List Arg := []
  kw_defaults : List Expression := []
  defaults : List Expression := []

mutual

/-- Module driver loop: translated from the source entry point. A
statement parse that fails with a diagnostic is reported and one
token is skipped; aborting failures propagate. -/
def parse_module_body : Nat → PM (List Statement)
  | 0 => throwP .outOfFuel
  | fuel + 1 => do
    if (← at_kind .Eof) then
      pure []
    else
      match (← tryRes (parse_statement fuel)) with
      | .ok stmt => do
        let rest ← parse_module_body fuel
        pure (stmt :: rest)
      | .error (.diag _) => do
        bump_any
        parse_module_body fuel
      | .error e => throwP e

/-- Statement dispatch: translated from the source. -/
def parse_statement : Nat → PM Statement
  | 0 => throwP .outOfFuel
  | fuel + 1 => do
    match (← cur_kind) with
    | .Identifier => parse_identifier_statement fuel
    | _ => do
      pure (.ExpressionStatement (← parse_expression fuel))

/-- Statement starting with an identifier: translated from the source. -/
def parse_identifier_statement : Nat → PM Statement
  | 0 => throwP .outOfFuel
  | fuel + 1 => do
    let start ← start_node
    let lhs ← parse_expression fuel
    if (← eat .Assign) then
      let rhs ← parse_expression fuel
      pure (.AssignStatement (← finish_node start) [lhs] rhs)
    else
      pure (.ExpressionStatement lhs)

/-- Top-level expression with bare commas building a tuple: translated
from the source. -/
def parse_expression : Nat → PM Expression
  | 0 => throwP .outOfFuel
  | fuel + 1 => do
    let node ← start_node
    let expr ← parse_expression_2 fuel
    if (← at_kind .Comma) then
      let rest ← parse_expression_rest fuel
      pure (.Tuple (← finish_node node) (expr :: rest))
    else
      pure expr

/-- Comma loop of the top-level expression: translated from the source. -/
def parse_expression_rest : Nat → PM (List Expression)
  | 0 => throwP .outOfFuel
  | fuel + 1 => do
    if (← eat .Comma) then
      if (← at_kind .Eof) then
        pure []
      else
        let e ← parse_expression_2 fuel
        let rest ← parse_expression_rest fuel
        pure (e :: rest)
    else
      pure []

/-- Conditional expression: translated from the source. The or-test
result is captured before the `if` dispatch; on the ternary path its
failure resurfaces only when the node is assembled; the ternary node
is captured with a bare start-node call. -/
def parse_conditional_expression : Nat → PM Expression
  | 0 => throwP .outOfFuel
  | fuel + 1 => do
    let or_test ← tryRes (parse_or_test fuel)
    if (← eat .If) then
      let test ← parse_or_test fuel
      expect .Else
      let or_else ← parse_expression_2 fuel
      let nd ← start_node
      match or_test with
      | .ok body => pure (.IfExp nd test body or_else)
      | .error e => throwP e
    else
      match or_test with
      | .ok e => pure e
      | .error e => throwP e

/-- Walrus assignment expression: translated from the source. -/
def parse_assignment_expression : Nat → PM Expression
  | 0 => throwP .outOfFuel
  | fuel + 1 => do
    let node ← start_node
    let k ← cur_kind
    let pk ← peek_kind
    if k = .Identifier ∧ pk = .Walrus then
      let t ← cur_tokenP
      let idNode0 ← start_node
      let _dead ← finish_node idNode0
      expect .Identifier
      let identifier_node ← finish_node idNode0
      if (← eat .Walrus) then
        let value ← parse_expression_2 fuel
        pure (.NamedExpr (← finish_node node) (.Name identifier_node t.value) value)
      else
        pure (.Name identifier_node t.value)
    else
      parse_expression_2 fuel

/-- List display: translated from the source. -/
def parse_list : Nat → PM Expression
  | 0 => throwP .outOfFuel
  | fuel + 1 => do
    let node ← start_node
    bump .LeftBrace
    let elements ← parse_starred_list fuel .RightBrace
    expect .RightBrace
    pure (.List (← finish_node node) elements)

/-- Parenthesized form or generator: translated from the source. The
empty form returns without consuming the closing parenthesis. -/
def parse_paren_form_or_generator : Nat → PM Expression
  | 0 => throwP .outOfFuel
  | fuel + 1 => do
    let node ← start_node
    expect .LeftParen
    if (← at_kind .RightParen) then
      pure (.Tuple (← finish_node node) [])
    else
      let k ← cur_kind
      let pk ← peek_kind
      let first_expr ←
        if k = .Identifier ∧ pk = .Walrus then
          parse_assignment_expression fuel
        else do
          if (← eat .Mul) then
            let expr ← parse_or_expr fuel
            pure (.Starred (← finish_node node) expr)
          else
            parse_expression_2 fuel
      let k₂ ← cur_kind
      let pk₂ ← peek_kind
      if k₂ = .For ∨ pk₂ = .For then
        let generators ← parse_comp_for fuel
        expect .RightParen
        pure (.Generator (← finish_node node) first_expr generators)
      else
        let expr ← parse_starred_expression fuel node first_expr
        expect .RightParen
        pure expr

/-- Comprehension clauses: translated from the source; the async
marker is read once before the clause loop. -/
def parse_comp_for : Nat → PM (List Comprehension)
  | 0 => throwP .outOfFuel
  | fuel + 1 => do
    let is_async ← eat .Async
    parse_comp_for_clauses fuel is_async

/-- Clause loop of the comprehension parse: translated from the source. -/
def parse_comp_for_clauses : Nat → Bool → PM (List Comprehension)
  | 0, _ => throwP .outOfFuel
  | fuel + 1, is_async => do
    let node ← start_node
    expect .For
    let target ← parse_target_list fuel
    expect .In
    let iter ← parse_or_test fuel
    let ifs ← do
      if (← eat .If) then
        parse_comp_ifs fuel
      else
        pure []
    let comp := Comprehension.mk (← finish_node node) target iter ifs is_async
    if (← cur_kind) = .For then
      let rest ← parse_comp_for_clauses fuel is_async
      pure (comp :: rest)
    else
      pure [comp]

/-- Chained `if` filters of one comprehension clause: translated from
the source. -/
def parse_comp_ifs : Nat → PM (List Expression)
  | 0 => throwP .outOfFuel
  | fuel + 1 => do
    let e ← parse_or_test fuel
    if (← eat .If) then
      let rest ← parse_comp_ifs fuel
      pure (e :: rest)
    else
      pure [e]

/-- Target list: translated from the source. -/
def parse_target_list : Nat → PM Expression
  | 0 => throwP .outOfFuel
  | fuel + 1 => do
    let node ← start_node
    let targets ← parse_target_elems fuel
    match targets with
    | [t] => pure t
    | _ => pure (.Tuple (← finish_node node) targets)

/-- Comma-separated targets (push then continue on comma): translated
from the source loop shape used by the target list and the bracketed
target groups. -/
def parse_target_elems : Nat → PM (List Expression)
  | 0 => throwP .outOfFuel
  | fuel + 1 => do
    let t ← parse_target fuel
    if (← eat .Comma) then
      let rest ← parse_target_elems fuel
      pure (t :: rest)
    else
      pure [t]

/-- Single assignment target: translated from the source. The plain
identifier case returns directly; other shapes continue into the
trailing comma loop; unknown starters abort the process. -/
def parse_target : Nat → PM Expression
  | 0 => throwP .outOfFuel
  | fuel + 1 => do
    let node ← start_node
    match (← cur_kind) with
    | .Identifier =>
      match (← peek_kind) with
      | .LeftBrace => do
        let atom ← parse_atom fuel
        let target ← parse_subscript fuel node atom
        parse_target_after fuel node target
      | .Dot => do
        let atom ← parse_atom fuel
        let target ← parse_atribute_ref fuel node atom
        parse_target_after fuel node target
      | _ => do
        let t ← cur_tokenP
        let idNode0 ← start_node
        let _dead ← finish_node idNode0
        expect .Identifier
        let identifier_node ← finish_node idNode0
        pure (.Name identifier_node t.value)
    | .LeftBrace => do
      bump .LeftBrace
      let elements ← parse_target_elems fuel
      expect .RightBrace
      parse_target_after fuel node (.List (← finish_node node) elements)
    | .LeftParen => do
      bump .LeftParen
      let targets ← parse_target_elems fuel
      expect .RightParen
      let target ←
        match targets with
        | [t] => pure t
        | _ => pure (Expression.Tuple (← finish_node node) targets)
      parse_target_after fuel node target
    | .Mul => do
      let fin ← finish_node node
      let inner ← parse_target fuel
      parse_target_after fuel node (.Starred fin inner)
    | _ => throwP (.panicMsg "invalid target")

/-- Trailing comma-joined targets after the first: translated from the
source. -/
def parse_target_after : Nat → Node → Expression → PM Expression
  | 0, _, _ => throwP .outOfFuel
  | fuel + 1, node, first => do
    let rest ← parse_target_tail fuel
    match rest with
    | [] => pure first
    | _ => pure (.Tuple (← finish_node node) (first :: rest))

/-- Comma loop of the trailing targets: translated from the source;
stops when the token after a comma cannot start a target. -/
def parse_target_tail : Nat → PM (List Expression)
  | 0 => throwP .outOfFuel
  | fuel + 1 => do
    if (← eat .Comma) then
      let k ← cur_kind
      if k = .Identifier ∨ k = .LeftBrace ∨ k = .LeftParen ∨ k = .Mul then
        let t ← parse_target fuel
        let rest ← parse_target_tail fuel
        pure (t :: rest)
      else
        pure []
    else
      pure []

/-- Braced display dispatch: translated from the source; the decision
peeks one token past the first inner token for a comma. -/
def parse_dict_or_set : Nat → PM Expression
  | 0 => throwP .outOfFuel
  | fuel + 1 => do
    let node ← start_node
    bump .LeftBracket
    if (← peek_kind) = .Comma then
      parse_set fuel node
    else
      parse_dict fuel node

/-- Set display: translated from the source. -/
def parse_set : Nat → Node → PM Expression
  | 0, _ => throwP .outOfFuel
  | fuel + 1, node => do
    let elements ← parse_starred_list fuel .RightBracket
    expect .RightBracket
    pure (.Set (← finish_node node) elements)

/-- Dict display: translated from the source. -/
def parse_dict : Nat → Node → PM Expression
  | 0, _ => throwP .outOfFuel
  | fuel + 1, node => do
    let items ← parse_dict_items fuel
    pure (.Dict (← finish_node node) (items.map Prod.fst) (items.map Prod.snd))

/-- Key-value loop of the dict parse: translated from the source. -/
def parse_dict_items : Nat → PM (List (Expression × Expression))
  | 0 => throwP .outOfFuel
  | fuel + 1 => do
    if (← eat .RightBracket) then
      pure []
    else
      let key ← parse_expression_2 fuel
      expect .Colon
      let value ← parse_expression_2 fuel
      if (← at_kind .RightBracket) then
        let rest ← parse_dict_items fuel
        pure ((key, value) :: rest)
      else do
        expect .Comma
        consume_whitespace_and_newline fuel
        let rest ← parse_dict_items fuel
        pure ((key, value) :: rest)

/-- Skip whitespace and line-structure tokens: translated from the
source. -/
def consume_whitespace_and_newline : Nat → PM Unit
  | 0 => throwP .outOfFuel
  | fuel + 1 => do
    let k ← cur_kind
    if k = .WhiteSpace ∨ k = .NewLine ∨ k = .Indent ∨ k = .Dedent then
      bump_any
      consume_whitespace_and_newline fuel
    else
      pure ()

/-- Starred-item list up to a terminator: translated from the source. -/
def parse_starred_list : Nat → Kind → PM (List Expression)
  | 0, _ => throwP .outOfFuel
  | fuel + 1, termination_kind => do
    let atEof ← at_kind .Eof
    let atTerm ← at_kind termination_kind
    if atEof || atTerm then
      pure []
    else
      let expr ← parse_starred_item fuel
      let atEof₂ ← at_kind .Eof
      let atTerm₂ ← at_kind termination_kind
      if !atEof₂ && !atTerm₂ then
        expect .Comma
        let rest ← parse_starred_list fuel termination_kind
        pure (expr :: rest)
      else
        let rest ← parse_starred_list fuel termination_kind
        pure (expr :: rest)

/-- One starred item: translated from the source. -/
def parse_starred_item : Nat → PM Expression
  | 0 => throwP .outOfFuel
  | fuel + 1 => do
    let node0 ← start_node
    if (← eat .Mul) then
      let starred_value_kind ← cur_kind
      let expr ← parse_or_expr fuel
      let node1 ← finish_node node0
      if is_iterable expr then
        pure (.Starred (← finish_node node1) expr)
      else
        throwP (.diag (.UnexpectedToken (kindStr starred_value_kind) node1))
    else
      parse_assignment_expression fuel

/-- Await expression helper: translated from the source. -/
def parse_await : Nat → PM Expression
  | 0 => throwP .outOfFuel
  | fuel + 1 => do
    let node ← start_node
    bump .Await
    let await_value_token ← cur_tokenP
    let await_value ← parse_expression_2 fuel
    if is_primary await_value then
      pure (.Await (← finish_node node) await_value)
    else
      throwP (.diag (.UnexpectedToken (kindStr await_value_token.kind)
        (← finish_node node)))

/-- Lambda or conditional expression: translated from the source; a
failing parameter parse aborts the process (the source unwraps it). -/
def parse_expression_2 : Nat → PM Expression
  | 0 => throwP .outOfFuel
  | fuel + 1 => do
    let node ← start_node
    if (← eat .Lambda) then
      match (← tryRes (parse_parameters fuel true)) with
      | .ok params_list => do
        expect .Colon
        let expr ← parse_expression_2 fuel
        pure (.Lambda (← finish_node node) params_list expr)
      | .error _ => throwP (.panicMsg "lambda params")
    else
      parse_conditional_expression fuel

/-- Boolean OR level: translated from the source. -/
def parse_or_test : Nat → PM Expression
  | 0 => throwP .outOfFuel
  | fuel + 1 => do
    let node ← start_node
    let lhs ← parse_and_test fuel
    if (← eat .Or) then
      let rhs ← parse_or_test fuel
      pure (.BoolOp (← finish_node node) .Or [lhs, rhs])
    else
      pure lhs

/-- Boolean AND level: translated from the source. -/
def parse_and_test : Nat → PM Expression
  | 0 => throwP .outOfFuel
  | fuel + 1 => do
    let node ← start_node
    let lhs ← parse_not_test fuel
    if (← at_kind .And) then
      bump .And
      let rhs ← parse_not_test fuel
      pure (.BoolOp (← finish_node node) .And [lhs, rhs])
    else
      pure lhs

/-- Logical NOT level: translated from the source. -/
def parse_not_test : Nat → PM Expression
  | 0 => throwP .outOfFuel
  | fuel + 1 => do
    let node ← start_node
    if (← at_kind .Not) then
      bump .Not
      let operand ← parse_not_test fuel
      pure (.UnaryOp (← finish_node node) .Not operand)
    else
      parse_comparison fuel

/-- Comparison level: translated from the source. When a comparison
operator follows the first operand, the source consumes the operator
and the right operand and then aborts on an unimplemented path. -/
def parse_comparison : Nat → PM Expression
  | 0 => throwP .outOfFuel
  | fuel + 1 => do
    let or_expr ← tryRes (parse_or_expr fuel)
    if is_comparison_operator (← cur_kind) then
      let _comp_operator ← parse_comp_operator
      let _rhs ← parse_or_expr fuel
      throwP (.panicMsg "not implemented")
    else
      match or_expr with
      | .ok e => pure e
      | .error e => throwP e

/-- Bitwise OR level: translated from the source. -/
def parse_or_expr : Nat → PM Expression
  | 0 => throwP .outOfFuel
  | fuel + 1 => do
    let node ← start_node
    let xor_expr ← parse_xor_expr fuel
    if (← eat .BitOr) then
      let lhs ← parse_xor_expr fuel
      pure (.BinOp (← finish_node node) .BitOr xor_expr lhs)
    else
      pure xor_expr

/-- Bitwise XOR level: translated from the source. -/
def parse_xor_expr : Nat → PM Expression
  | 0 => throwP .outOfFuel
  | fuel + 1 => do
    let node ← start_node
    let and_expr ← parse_and_expr fuel
    if (← eat .BitXor) then
      let lhs ← parse_and_expr fuel
      pure (.BinOp (← finish_node node) .BitXor and_expr lhs)
    else
      pure and_expr

/-- Bitwise AND level: translated from the source. -/
def parse_and_expr : Nat → PM Expression
  | 0 => throwP .outOfFuel
  | fuel + 1 => do
    let node ← start_node
    let shift_expr ← parse_shift_expr fuel
    if (← eat .BitAnd) then
      let lhs ← parse_shift_expr fuel
      pure (.BinOp (← finish_node node) .BitAnd shift_expr lhs)
    else
      pure shift_expr

/-- Shift level: translated from the source. -/
def parse_shift_expr : Nat → PM Expression
  | 0 => throwP .outOfFuel
  | fuel + 1 => do
    let node ← start_node
    let arith_expr ← parse_binary_arithmetic_operation fuel
    let atL ← at_kind .LeftShift
    let atR ← at_kind .RightShift
    if atL || atR then
      let op ← do
        if (← eat .LeftShift) then
          pure BinaryOperator.LShift
        else do
          bump .RightShift
          pure BinaryOperator.RShift
      let lhs ← parse_binary_arithmetic_operation fuel
      pure (.BinOp (← finish_node node) op arith_expr lhs)
    else
      pure arith_expr

/-- Additive/multiplicative level, one operator per node: translated
from the source. -/
def parse_binary_arithmetic_operation : Nat → PM Expression
  | 0 => throwP .outOfFuel
  | fuel + 1 => do
    let node ← start_node
    let lhs ← parse_unary_arithmetric_operation fuel
    if is_bin_arithmetic_op (← cur_kind) then
      let op ← parse_bin_arithmetic_op
      let rhs ← parse_unary_arithmetric_operation fuel
      pure (.BinOp (← finish_node node) op lhs rhs)
    else
      pure lhs

/-- Unary arithmetic level (name kept as in the source): translated
from the source. -/
def parse_unary_arithmetric_operation : Nat → PM Expression
  | 0 => throwP .outOfFuel
  | fuel + 1 => do
    let node ← start_node
    let k ← cur_kind
    if is_unary_op k then
      let op := map_unary_operator k
      bump_any
      let operand ← parse_unary_arithmetric_operation fuel
      pure (.UnaryOp (← finish_node node) op operand)
    else
      parse_power_expression fuel

/-- Power level, with the inline await base: translated from the
source. On the non-await path a failing base resurfaces only after a
following exponent is parsed. -/
def parse_power_expression : Nat → PM Expression
  | 0 => throwP .outOfFuel
  | fuel + 1 => do
    let node ← start_node
    if (← at_kind .Await) then
      bump .Await
      let value ← parse_primary fuel
      let fin ← finish_node node
      let base := Expression.Await fin value
      if (← eat .Pow) then
        let exponent ← parse_unary_arithmetric_operation fuel
        pure (.BinOp (← finish_node node) .Pow base exponent)
      else
        pure base
    else
      let base ← tryRes (parse_primary fuel)
      if (← eat .Pow) then
        let exponent ← parse_unary_arithmetric_operation fuel
        let fin ← finish_node node
        match base with
        | .ok b => pure (.BinOp fin .Pow b exponent)
        | .error e => throwP e
      else
        match base with
        | .ok b => pure b
        | .error e => throwP e

/-- Primary: atom plus attribute/subscript/call suffixes: translated
from the source; a non-atom starter aborts on an unimplemented path. -/
def parse_primary : Nat → PM Expression
  | 0 => throwP .outOfFuel
  | fuel + 1 => do
    let node ← start_node
    let atom_or_primary ←
      if is_atom (← cur_kind) then
        parse_atom fuel
      else
        throwP (.panicMsg "parse_primary")
    if (← at_kind .Dot) then
      parse_atribute_ref fuel node atom_or_primary
    else if (← at_kind .LeftBrace) then
      parse_subscript fuel node atom_or_primary
    else do
      if (← eat .LeftParen) then
        let (positional_args, keyword_args) ← parse_call_args fuel false
        bump .Comma
        expect .RightParen
        pure (.Call (← finish_node node) atom_or_primary positional_args
          keyword_args none none)
      else
        pure atom_or_primary

/-- Call argument loop: translated from the source. Once a keyword
argument or double-star unpack is seen, a later bare positional
argument is rejected; a starred argument stays allowed. -/
def parse_call_args : Nat → Bool → PM (List Expression × List Keyword)
  | 0, _ => throwP .outOfFuel
  | fuel + 1, seen_keyword => do
    if (← at_kind .RightParen) then
      pure ([], [])
    else
      let k ← cur_kind
      let pk ← peek_kind
      if k = .Identifier ∧ pk = .Assign then
        match (← tryRes (parse_keyword_item fuel)) with
        | .ok keyword_arg => do
          if (← eat .Comma) then
            let (ps, ks) ← parse_call_args fuel true
            pure (ps, keyword_arg :: ks)
          else
            pure ([], [keyword_arg])
        | .error _ => do
          let s ← getP
          throwP (.diag (.ExpectToken "Keyword argument" (kindStr s.cur_token.kind)
            ⟨s.cur_token.start, s.prev_token_end⟩))
      else if k = .Mul then
        let star_arg_node ← start_node
        bump .Mul
        let fin ← finish_node star_arg_node
        let v ← parse_expression_2 fuel
        let star_arg := Expression.Starred fin v
        if (← eat .Comma) then
          let (ps, ks) ← parse_call_args fuel seen_keyword
          pure (star_arg :: ps, ks)
        else
          pure ([star_arg], [])
      else if k = .Pow then
        let kwarg_node ← start_node
        bump .Pow
        let fin ← finish_node kwarg_node
        let v ← parse_expression_2 fuel
        let kwarg := Keyword.mk fin none v
        if (← eat .Comma) then
          let (ps, ks) ← parse_call_args fuel true
          pure (ps, kwarg :: ks)
        else
          pure ([], [kwarg])
      else
        if seen_keyword then
          let s ← getP
          throwP (.diag (.ExpectToken "Positional argument after keyword argument"
            (kindStr s.cur_token.kind) ⟨s.cur_token.start, s.prev_token_end⟩))
        else
          let arg ← parse_assignment_expression fuel
          if (← eat .Comma) then
            let (ps, ks) ← parse_call_args fuel seen_keyword
            pure (arg :: ps, ks)
          else
            pure ([arg], [])

/-- Attribute reference chain (name kept as in the source): translated
from the source. -/
def parse_atribute_ref : Nat → Node → Expression → PM Expression
  | 0, _, _ => throwP .outOfFuel
  | fuel + 1, node, value => do
    if (← eat .Dot) then
      let t ← cur_tokenP
      expect .Identifier
      let fin ← finish_node node
      parse_atribute_ref fuel node (.Attribute fin value t.value)
    else
      pure value

/-- Subscript chain: translated from the source. -/
def parse_subscript : Nat → Node → Expression → PM Expression
  | 0, _, _ => throwP .outOfFuel
  | fuel + 1, node, value => do
    if (← eat .LeftBrace) then
      let slice ← parse_slice_list fuel
      let fin ← finish_node node
      parse_subscript fuel node (.Subscript fin value slice)
    else
      pure value

/-- Atom: translated from the source. Bracketed displays adjust the
nesting counter around the delegated parse even on failure; literal
atoms feed the string-concatenation loop. -/
def parse_atom : Nat → PM Expression
  | 0 => throwP .outOfFuel
  | fuel + 1 => do
    let node ← start_node
    let k ← cur_kind
    if k = .Yield then
      parse_yield_expression fuel
    else if k = .LeftBrace then
      incNested
      let r ← tryRes (parse_list fuel)
      decNested
      match r with
      | .ok e => pure e
      | .error e => throwP e
    else if k = .LeftBracket then
      incNested
      let r ← tryRes (parse_dict_or_set fuel)
      decNested
      match r with
      | .ok e => pure e
      | .error e => throwP e
    else if k = .LeftParen then
      incNested
      let r ← tryRes (parse_paren_form_or_generator fuel)
      decNested
      match r with
      | .ok e => pure e
      | .error e => throwP e
    else if k = .Identifier then
      let t ← cur_tokenP
      bump .Identifier
      pure (.Name (← finish_node node) t.value)
    else if is_atom k then
      let t ← cur_tokenP
      bump_any
      let expr ← map_to_atom fuel node t.kind t.value
      if is_string t.kind then
        parse_atom_concat fuel node expr
      else
        pure expr
    else
      throwP (.diag (.UnexpectedToken (kindStr k) (← finish_node node)))

/-- String-literal concatenation loop: translated from the source.
Line breaks are crossed only inside a bracketed aggregate. -/
def parse_atom_concat : Nat → Node → Expression → PM Expression
  | 0, _, _ => throwP .outOfFuel
  | fuel + 1, node, expr => do
    let k ← cur_kind
    if is_string k then
      let t ← cur_tokenP
      bump_any
      let next_str ← map_to_atom fuel node t.kind t.value
      match concat_string_exprs expr next_str with
      | .ok e => parse_atom_concat fuel node e
      | .error e => throwP e
    else if (← eat .WhiteSpace) then
      parse_atom_concat fuel node expr
    else if k = .Indent ∨ k = .NewLine ∨ k = .Dedent then
      let s ← getP
      if s.nested_expression_list > 0 then
        bump_any
        parse_atom_concat fuel node expr
      else
        pure expr
    else
      pure expr

/-- Yield expression: translated from the source; a failing value list
is swallowed into an empty yield value. -/
def parse_yield_expression : Nat → PM Expression
  | 0 => throwP .outOfFuel
  | fuel + 1 => do
    let yield_node ← start_node
    bump .Yield
    if (← eat .From) then
      let value ← parse_expression_2 fuel
      pure (.YieldFrom (← finish_node yield_node) value)
    else
      let ateNewline ← eat .NewLine
      let atEof ← at_kind .Eof
      if ateNewline || atEof then
        pure (.Yield (← finish_node yield_node) none)
      else
        let value ← do
          match (← tryRes (parse_expression_list fuel)) with
          | .ok e => pure (some e)
          | .error _ => pure none
        pure (.Yield (← finish_node yield_node) value)

/-- Expression list: translated from the source. -/
def parse_expression_list : Nat → PM Expression
  | 0 => throwP .outOfFuel
  | fuel + 1 => do
    let node ← start_node
    let first ← parse_expression_2 fuel
    let rest ← parse_expression_list_rest fuel
    match rest with
    | [] => pure first
    | _ => pure (.Tuple (← finish_node node) (first :: rest))

/-- Comma loop of the expression list: translated from the source. -/
def parse_expression_list_rest : Nat → PM (List Expression)
  | 0 => throwP .outOfFuel
  | fuel + 1 => do
    if (← eat .Comma) then
      if (← at_kind .Eof) then
        pure []
      else
        let e ← parse_expression_2 fuel
        let rest ← parse_expression_list_rest fuel
        pure (e :: rest)
    else
      pure []

/-- Parenthesized expression list after its first element: translated
from the source. The one-element check requires that no element was
parsed inside the loop, so a bare trailing comma keeps the plain
expression. -/
def parse_starred_expression : Nat → Node → Expression → PM Expression
  | 0, _, _ => throwP .outOfFuel
  | fuel + 1, node, first_elm => do
    let (rest, seen_comma) ← parse_starred_expression_rest fuel
    match rest, seen_comma with
    | [], false => pure first_elm
    | _, _ => pure (.Tuple (← finish_node node) (first_elm :: rest))

/-- Comma loop of the parenthesized expression list: translated from
the source; the flag records whether an element was parsed after a
comma. -/
def parse_starred_expression_rest : Nat → PM (List Expression × Bool)
  | 0 => throwP .outOfFuel
  | fuel + 1 => do
    let atEof ← at_kind .Eof
    let atRp ← at_kind .RightParen
    if atEof || atRp then
      pure ([], false)
    else do
      expect .Comma
      if (← at_kind .RightParen) then
        pure ([], false)
      else
        let expr ← parse_starred_item fuel
        let (rest, _) ← parse_starred_expression_rest fuel
        pure (expr :: rest, true)

/-- Subscript body: translated from the source. -/
def parse_slice_list : Nat → PM Expression
  | 0 => throwP .outOfFuel
  | fuel + 1 => do
    let node ← start_node
    let elements ← parse_slice_items fuel
    expect .RightBrace
    match elements with
    | [e] => pure e
    | _ => pure (.Tuple (← finish_node node) elements)

/-- Item loop of the subscript body: translated from the source. -/
def parse_slice_items : Nat → PM (List Expression)
  | 0 => throwP .outOfFuel
  | fuel + 1 => do
    let atEof ← at_kind .Eof
    let atRb ← at_kind .RightBrace
    if atEof || atRb then
      pure []
    else
      let elem ←
        if (← at_kind .Colon) then
          parse_proper_slice fuel none
        else do
          let expr ← parse_expression_2 fuel
          if (← at_kind .Colon) then
            parse_proper_slice fuel (some expr)
          else
            pure expr
      if (← eat .Comma) then
        let rest ← parse_slice_items fuel
        pure (elem :: rest)
      else
        pure [elem]

/-- Proper slice: translated from the source. -/
def parse_proper_slice : Nat → Option Expression → PM Expression
  | 0, _ => throwP .outOfFuel
  | fuel + 1, lower => do
    let node ← start_node
    let slice_lower ←
      match lower with
      | some l => pure (some l)
      | none => do
        if (← eat .Colon) then
          pure none
        else
          pure (some (← parse_expression_2 fuel))
    let upper ←
      if (← eat .Colon) then
        if (← at_kind .RightBrace) then
          pure none
        else
          pure (some (← parse_expression_2 fuel))
      else
        pure none
    let step ←
      if (← eat .Colon) then
        if (← at_kind .RightBrace) then
          pure none
        else
          pure (some (← parse_expression_2 fuel))
      else
        pure none
    pure (.Slice (← finish_node node) slice_lower upper step)

/-- Map a consumed literal token to its atom: translated from the
source; byte literals must carry their prefix or the process aborts;
an interpolated-string start delegates to the fstring parse. -/
def map_to_atom : Nat → Node → Kind → String → PM Expression
  | 0, _, _, _ => throwP .outOfFuel
  | fuel + 1, start, k, value =>
    match k with
    | .Identifier => do
      pure (.Name (← finish_node start) value)
    | .Integer => do
      pure (.Constant (← finish_node start) (.Int value))
    | .None => do
      pure (.Constant (← finish_node start) .None)
    | .True => do
      pure (.Constant (← finish_node start) (.Bool true))
    | .False => do
      pure (.Constant (← finish_node start) (.Bool false))
    | .ImaginaryInteger => do
      pure (.Constant (← finish_node start) (.Complex "0" value))
    | .Bytes => do
      if value.startsWith "b" then
        pure (.Constant (← finish_node start)
          (.Bytes (extract_string_inside (value.drop 1))))
      else
        throwP (.panicMsg "bytes literal must start with b")
    | .StringLiteral => do
      pure (.Constant (← finish_node start) (.Str (extract_string_inside value)))
    | .RawString => do
      pure (.Constant (← finish_node start)
        (.Str (extract_string_inside (value.drop 1))))
    | .RawBytes => do
      pure (.Constant (← finish_node start)
        (.Bytes (extract_string_inside (value.drop 2))))
    | .FStringStart => do
      let fstring ← parse_fstring fuel
      pure (.JoinedStr (← finish_node start) fstring)
    | _ => do
      throwP (.diag (.InvalidSyntax "Unexpected token" (← finish_node start)))

/-- Interpolated string body after its start marker: translated from
the source. -/
def parse_fstring : Nat → PM (List Expression)
  | 0 => throwP .outOfFuel
  | fuel + 1 => do
    let exprs ← parse_fstring_items fuel
    bump .FStringEnd
    pure exprs

/-- Segment loop of the interpolated string: translated from the
source; a literal segment is boxed with a bare start-node call. -/
def parse_fstring_items : Nat → PM (List Expression)
  | 0 => throwP .outOfFuel
  | fuel + 1 => do
    let k ← cur_kind
    if k = .FStringEnd then
      pure []
    else
      match k with
      | .FStringMiddle => do
        let t ← cur_tokenP
        bump .FStringMiddle
        let nd ← start_node
        let rest ← parse_fstring_items fuel
        pure (Expression.Constant nd (.Str t.value) :: rest)
      | .LeftBracket => do
        bump .LeftBracket
        let e ← parse_expression fuel
        expect .RightBracket
        let rest ← parse_fstring_items fuel
        pure (e :: rest)
      | _ => do
        let s ← getP
        throwP (.diag (.UnexpectedToken "unknown token in fstring"
          ⟨s.cur_token.start, s.prev_token_end⟩))

/-- One keyword argument: translated from the source. -/
def parse_keyword_item : Nat → PM Keyword
  | 0 => throwP .outOfFuel
  | fuel + 1 => do
    let node ← start_node
    let t ← cur_tokenP
    bump .Identifier
    bump .Assign
    let value ← parse_expression_2 fuel
    pure (Keyword.mk (← finish_node node) (some t.value) value)

/-- Parameter list: translated from the source. -/
def parse_parameters : Nat → Bool → PM Arguments
  | 0, _ => throwP .outOfFuel
  | fuel + 1, is_lambda => do
    let node ← start_node
    let acc ← parse_parameters_loop fuel is_lambda node {}
    pure (Arguments.mk (← finish_node node) acc.posonlyargs acc.args acc.vararg
      acc.kwonlyargs acc.kw_defaults acc.kwarg acc.defaults)

/-- Parameter loop: translated from the source, threading the mutable
flags and groups through an accumulator. -/
def parse_parameters_loop : Nat → Bool → Node → ParamsAcc → PM ParamsAcc
  | 0, _, _, _ => throwP .outOfFuel
  | fuel + 1, is_lambda, node, acc => do
    if (← is_def_parameter) then
      let pd ← parse_parameter fuel is_lambda
      let acc₂ ←
        if acc.seen_vararg then
          pure { acc with kwonlyargs := acc.kwonlyargs ++ [pd.1] }
        else if acc.seen_kwarg then
          throwP (.diag (.InvalidSyntax "parameter after kwarg" (← finish_node node)))
        else
          pure { acc with args := acc.args ++ [pd.1] }
      let acc₃ ←
        match pd.2 with
        | some default_value =>
          if acc₂.seen_vararg then
            pure { acc₂ with kw_defaults := acc₂.kw_defaults ++ [default_value] }
          else
            pure { acc₂ with must_have_default := true,
                             defaults := acc₂.defaults ++ [default_value] }
        | none =>
          if acc₂.must_have_default then
            throwP (.diag (.InvalidSyntax "non-default argument follows default argument"
              (← finish_node node)))
          else
            pure acc₂
      parse_parameters_loop fuel is_lambda node acc₃
    else if (← eat .Mul) then
      let acc₂ := { acc with seen_vararg := true }
      let pd ← parse_parameter fuel is_lambda
      if pd.2.isSome then
        throwP (.diag (.InvalidSyntax "var-positional argument cannot have default value"
          (← finish_node node)))
      else
        parse_parameters_loop fuel is_lambda node { acc₂ with vararg := some pd.1 }
    else if (← eat .Pow) then
      let acc₂ := { acc with seen_kwarg := true }
      let pd ← parse_parameter fuel is_lambda
      if pd.2.isSome then
        throwP (.diag (.InvalidSyntax "var-keyword argument cannot have default value"
          (← finish_node node)))
      else
        parse_parameters_loop fuel is_lambda node { acc₂ with kwarg := some pd.1 }
    else if (← eat .Comma) then
      parse_parameters_loop fuel is_lambda node acc
    else if (← eat .Div) then
      parse_parameters_loop fuel is_lambda node
        { acc with posonlyargs := acc.args, args := [] }
    else
      pure acc

/-- One parameter with optional annotation and default: translated
from the source; lambda parameters skip the annotation branch. -/
def parse_parameter : Nat → Bool → PM (Arg × Option Expression)
  | 0, _ => throwP .outOfFuel
  | fuel + 1, is_lambda => do
    let node ← start_node
    let t ← cur_tokenP
    bump .Identifier
    let atColon ← at_kind .Colon
    let annot ←
      if atColon && !is_lambda then do
        bump .Colon
        pure (some (← parse_expression_2 fuel))
      else
        pure none
    let dflt ←
      if (← eat .Assign) then
        pure (some (← parse_expression_2 fuel))
      else
        pure none
    pure (Arg.mk (← finish_node node) t.value annot, dflt)

end

/-- Parse entry point: translated from the source; the driver loop is
`parse_module_body`. -/
def parse (fuel : Nat) : PM Module := do
  let node ← start_node
  let body ← parse_module_body fuel
  pure ⟨← finish_node node, body⟩

/-- Build a parser state the way the source entry point does: pull the
first token, start with zero previous end and nesting. -/
def mkParser (toks : List Token) (eofPos : Nat) : Parser :=
  match toks with
  | [] => ⟨[], eofPos, eofToken eofPos, 0, 0, 0⟩
  | t :: rest => ⟨rest, eofPos, t, 0, 0, 0⟩

/-- Value of a successful run. -/
def resOk {α : Type} : PResult α → Option α
  | .ok a _ => some a
  | .err _ _ => none

/-- Error of a failed run. -/
def resErr {α : Type} : PResult α → Option PErr
  | .err e _ => some e
  | .ok _ _ => none

/-- Kind of the current token in the state a run left behind. -/
def resCurKind {α : Type} : PResult α → Kind
  | .ok _ s => s.cur_token.kind
  | .err _ s => s.cur_token.kind

/-- The async flag of the second comprehension clause of a parsed
generator statement. -/
def second_comp_async : PResult Statement → Option Bool
  | .ok (.ExpressionStatement (.Generator _ _ [_, .mk _ _ _ _ b])) _ => some b
  | _ => none

/-- Token stream of `a < b < c`. -/
def c1_toks : List Token :=
  [⟨.Identifier, "a", 0, 1⟩, ⟨.Less, "<", 2, 3⟩, ⟨.Identifier, "b", 4, 5⟩,
   ⟨.Less, "<", 6, 7⟩, ⟨.Identifier, "c", 8, 9⟩]

/-- Token stream of `a < b`. -/
def c2_toks : List Token :=
  [⟨.Identifier, "a", 0, 1⟩, ⟨.Less, "<", 2, 3⟩, ⟨.Identifier, "b", 4, 5⟩]

/-- Token stream of `a if b else c`. -/
def c3_toks : List Token :=
  [⟨.Identifier, "a", 0, 1⟩, ⟨.If, "if", 2, 4⟩, ⟨.Identifier, "b", 5, 6⟩,
   ⟨.Else, "else", 7, 11⟩, ⟨.Identifier, "c", 12, 13⟩]

/-- Token stream of the braced display with one key-value pair. -/
def c4_dict_toks : List Token :=
  [⟨.LeftBracket, "\x7b", 0, 1⟩, ⟨.Identifier, "a", 1, 2⟩, ⟨.Colon, ":", 2, 3⟩,
   ⟨.Identifier, "b", 4, 5⟩, ⟨.RightBracket, "\x7d", 5, 6⟩]

/-- Token stream of the empty braced display. -/
def c4_empty_toks : List Token :=
  [⟨.LeftBracket, "\x7b", 0, 1⟩, ⟨.RightBracket, "\x7d", 1, 2⟩]

/-- Token stream of the single-element braced display. -/
def c4_single_toks : List Token :=
  [⟨.LeftBracket, "\x7b", 0, 1⟩, ⟨.Identifier, "a", 1, 2⟩, ⟨.RightBracket, "\x7d", 2, 3⟩]

/-- Token stream of the two-element braced display. -/
def c4_pair_toks : List Token :=
  [⟨.LeftBracket, "\x7b", 0, 1⟩, ⟨.Identifier, "a", 1, 2⟩, ⟨.Comma, ",", 2, 3⟩,
   ⟨.Identifier, "b", 4, 5⟩, ⟨.RightBracket, "\x7d", 5, 6⟩]

/-- Token stream of the empty parenthesized form. -/
def c5_empty_toks : List Token :=
  [⟨.LeftParen, "(", 0, 1⟩, ⟨.RightParen, ")", 1, 2⟩]

/-- Token stream of the one-element parenthesized form. -/
def c5_plain_toks : List Token :=
  [⟨.LeftParen, "(", 0, 1⟩, ⟨.Identifier, "a", 1, 2⟩, ⟨.RightParen, ")", 2, 3⟩]

/-- Token stream of the one-element parenthesized form with a trailing
comma. -/
def c5_trailing_toks : List Token :=
  [⟨.LeftParen, "(", 0, 1⟩, ⟨.Identifier, "a", 1, 2⟩, ⟨.Comma, ",", 2, 3⟩,
   ⟨.RightParen, ")", 3, 4⟩]

/-- Parameter tokens of `a=1, *b, c` followed by the lambda colon. -/
def c6_kwonly_toks : List Token :=
  [⟨.Identifier, "a", 0, 1⟩, ⟨.Assign, "=", 1, 2⟩, ⟨.Integer, "1", 2, 3⟩,
   ⟨.Comma, ",", 3, 4⟩, ⟨.Mul, "*", 5, 6⟩, ⟨.Identifier, "b", 6, 7⟩,
   ⟨.Comma, ",", 7, 8⟩, ⟨.Identifier, "c", 9, 10⟩, ⟨.Colon, ":", 10, 11⟩,
   ⟨.Identifier, "a", 12, 13⟩]

/-- Parameter tokens of `a=1, b` followed by the lambda colon. -/
def c6_missing_default_toks : List Token :=
  [⟨.Identifier, "a", 0, 1⟩, ⟨.Assign, "=", 1, 2⟩, ⟨.Integer, "1", 2, 3⟩,
   ⟨.Comma, ",", 3, 4⟩, ⟨.Identifier, "b", 5, 6⟩, ⟨.Colon, ":", 6, 7⟩,
   ⟨.Identifier, "a", 8, 9⟩]

/-- Parameter tokens of `*a=1` followed by the lambda colon. -/
def c6_vararg_default_toks : List Token :=
  [⟨.Mul, "*", 0, 1⟩, ⟨.Identifier, "a", 1, 2⟩, ⟨.Assign, "=", 2, 3⟩,
   ⟨.Integer, "1", 3, 4⟩, ⟨.Colon, ":", 4, 5⟩, ⟨.Identifier, "a", 6, 7⟩]

/-- Token stream of `lambda a=1, *b, c: a`. -/
def c6_lambda_toks : List Token :=
  ⟨.Lambda, "lambda", 0, 6⟩ ::
    c6_kwonly_toks.map (fun t => { t with start := t.start + 7, endOff := t.endOff + 7 })

/-- Token stream of `func(a, b=c, *d)`. -/
def c7_call_ok_toks : List Token :=
  [⟨.Identifier, "func", 0, 4⟩, ⟨.LeftParen, "(", 4, 5⟩, ⟨.Identifier, "a", 5, 6⟩,
   ⟨.Comma, ",", 6, 7⟩, ⟨.Identifier, "b", 8, 9⟩, ⟨.Assign, "=", 9, 10⟩,
   ⟨.Identifier, "c", 10, 11⟩, ⟨.Comma, ",", 11, 12⟩, ⟨.Mul, "*", 13, 14⟩,
   ⟨.Identifier, "d", 14, 15⟩, ⟨.RightParen, ")", 15, 16⟩]

/-- Token stream of `func(b=c, a)`. -/
def c7_call_bad_toks : List Token :=
  [⟨.Identifier, "func", 0, 4⟩, ⟨.LeftParen, "(", 4, 5⟩, ⟨.Identifier, "b", 5, 6⟩,
   ⟨.Assign, "=", 6, 7⟩, ⟨.Identifier, "c", 7, 8⟩, ⟨.Comma, ",", 8, 9⟩,
   ⟨.Identifier, "a", 10, 11⟩, ⟨.RightParen, ")", 11, 12⟩]

/-- Token stream of two adjacent plain string literals. -/
def c8_adjacent_toks : List Token :=
  [⟨.StringLiteral, "\"a\"", 0, 3⟩, ⟨.StringLiteral, "\"b\"", 4, 7⟩]

/-- Token stream of two string literals separated by whitespace. -/
def c8_whitespace_toks : List Token :=
  [⟨.StringLiteral, "\"a\"", 0, 3⟩, ⟨.WhiteSpace, " ", 3, 4⟩,
   ⟨.StringLiteral, "\"b\"", 4, 7⟩]

/-- Token stream of two string literals separated by a line break. -/
def c8_newline_toks : List Token :=
  [⟨.StringLiteral, "\"a\"", 0, 3⟩, ⟨.NewLine, "\n", 3, 4⟩,
   ⟨.StringLiteral, "\"b\"", 4, 7⟩]

/-- State on the line-break-separated strings as inside a bracketed
aggregate: nesting depth one. -/
def c8_nested_state : Parser :=
  { mkParser c8_newline_toks 7 with nested_expression_list := 1 }

/-- Cursor state inside `(a async for b in c for d in e)` right after
the element `a`: the clause parse begins at the `async`, nesting depth
one, previous token end at the end of `a`. -/
def c9_async_state : Parser :=
  ⟨[⟨.For, "for", 9, 12⟩, ⟨.Identifier, "b", 13, 14⟩, ⟨.In, "in", 15, 17⟩,
    ⟨.Identifier, "c", 18, 19⟩, ⟨.For, "for", 20, 23⟩, ⟨.Identifier, "d", 24, 25⟩,
    ⟨.In, "in", 26, 28⟩, ⟨.Identifier, "e", 29, 30⟩, ⟨.RightParen, ")", 30, 31⟩],
   31, ⟨.Async, "async", 3, 8⟩, 2, 1, 0⟩

/-- Cursor state inside `(a for b in c for d in e)` right after the
element `a`. -/
def c9_plain_state : Parser :=
  ⟨[⟨.Identifier, "b", 7, 8⟩, ⟨.In, "in", 9, 11⟩, ⟨.Identifier, "c", 12, 13⟩,
    ⟨.For, "for", 14, 17⟩, ⟨.Identifier, "d", 18, 19⟩, ⟨.In, "in", 20, 22⟩,
    ⟨.Identifier, "e", 23, 24⟩, ⟨.RightParen, ")", 24, 25⟩],
   25, ⟨.For, "for", 3, 6⟩, 2, 1, 0⟩

/-- Cursor state inside `(a for b in c async for d in e)` right after
the element `a`. -/
def c9_mid_async_state : Parser :=
  ⟨[⟨.Identifier, "b", 7, 8⟩, ⟨.In, "in", 9, 11⟩, ⟨.Identifier, "c", 12, 13⟩,
    ⟨.Async, "async", 14, 19⟩, ⟨.For, "for", 20, 23⟩, ⟨.Identifier, "d", 24, 25⟩,
    ⟨.In, "in", 26, 28⟩, ⟨.Identifier, "e", 29, 30⟩, ⟨.RightParen, ")", 30, 31⟩],
   31, ⟨.For, "for", 3, 6⟩, 2, 1, 0⟩

/-- Applying a bound parser action steps through the first action and
feeds its value and state to the continuation. -/
theorem PM_bind_apply {α β : Type} (x : PM α) (f : α → PM β) (s : Parser) :
    (x >>= f) s = match x s with
      | .ok a s₂ => f a s₂
      | .err e s₂ => .err e s₂ := rfl

/-- Applying a pure parser action returns its value and the state. -/
theorem PM_pure_apply {α : Type} (a : α) (s : Parser) :
    (pure a : PM α) s = .ok a s := rfl

/-- Identifier token with zeroed offsets, for operator-chain streams. -/
def identTok (x : String) : Token := ⟨.Identifier, x, 0, 0⟩

/-- Or-keyword token with zeroed offsets. -/
def orTok : Token := ⟨.Or, "or", 0, 0⟩

/-- Continuation of an or-chain token stream: one separator and one
identifier per further name. -/
def orChainRest : List String → List Token
  | [] => []
  | x :: xs => orTok :: identTok x :: orChainRest xs

/-- Token stream of the names joined by the or keyword. -/
def orChainToks : List String → List Token
  | [] => []
  | x :: xs => identTok x :: orChainRest xs

/-- Right-nested binary shape of a parsed or-chain: a single name, or
a BoolOp with exactly two values whose first is the leading name and
whose second has the shape of the remaining chain. -/
def or_chain_shape : Expression → List String → Prop
  | e, [x] => ∃ nd, e = .Name nd x
  | e, x :: xs => ∃ nd nd₂ rest, e = .BoolOp nd .Or [.Name nd₂ x, rest]
      ∧ or_chain_shape rest xs
  | _, [] => False

/-- One unfolding step of the boolean OR level at positive fuel. -/
theorem parse_or_test_step (fuel : Nat) (s : Parser) :
    parse_or_test (fuel + 1) s = (do
      let node ← start_node
      let lhs ← parse_and_test fuel
      if (← eat .Or) then
        let rhs ← parse_or_test fuel
        pure (Expression.BoolOp (← finish_node node) .Or [lhs, rhs])
      else
        pure lhs) s := rfl

/-- Descending through the whole precedence chain, a single identifier
whose successor token is the or keyword parses to a Name and stops in
front of the separator. -/
theorem parse_and_test_ident_or (n : Nat) (h : 12 ≤ n) (x : String)
    (ts : List Token) :
    parse_and_test n ⟨orTok :: ts, 0, identTok x, 0, 0, 0⟩ =
      .ok (.Name ⟨0, 0⟩ x) ⟨ts, 0, orTok, 0, 0, 0⟩ := by
  obtain ⟨m, rfl⟩ : ∃ m, n = m + 12 := ⟨n - 12, by omega⟩
  rfl

/-- An or-chain of any positive length parses to a right-nested tree
of binary BoolOp nodes consuming the whole stream. -/
theorem or_chain_parses (xs : List String) : ∀ (m : Nat) (x : String),
    ∃ e, parse_or_test (m + (12 * xs.length + 14))
          (mkParser (orChainToks (x :: xs)) 0)
        = .ok e (mkParser [] 0) ∧ or_chain_shape e (x :: xs) := by
  induction xs with
  | nil =>
    intro m x
    exact ⟨.Name ⟨0, 0⟩ x, rfl, ⟨⟨0, 0⟩, rfl⟩⟩
  | cons y ys ih =>
    intro m x
    obtain ⟨e, he, hs⟩ := ih (m + 11) y
    refine ⟨.BoolOp ⟨0, 0⟩ .Or [.Name ⟨0, 0⟩ x, e], ?_, ⟨⟨0, 0⟩, ⟨0, 0⟩, e, rfl, hs⟩⟩
    have hf : m + (12 * (y :: ys).length + 14)
        = ((m + 11) + (12 * ys.length + 14)) + 1 := by
      simp only [List.length_cons]
      ring
    rw [hf]
    simp only [orChainToks, orChainRest, mkParser] at he ⊢
    rw [parse_or_test_step]
    simp only [PM_bind_apply, PM_pure_apply, start_node]
    rw [parse_and_test_ident_or ((m + 11) + (12 * ys.length + 14)) (by omega) x
      (identTok y :: orChainRest ys)]
    simp only [eat, at_kind, PM_bind_apply, PM_pure_apply, advance, orTok,
      decide_True, decide_eq_true_eq, if_true, ite_true]
    rw [he]
    simp only [finish_node, identTok, PM_pure_apply]

/-- Token stream of `a or b or c`. -/
def c10_toks : List Token :=
  [⟨.Identifier, "a", 0, 1⟩, ⟨.Or, "or", 2, 4⟩, ⟨.Identifier, "b", 5, 6⟩,
   ⟨.Or, "or", 7, 9⟩, ⟨.Identifier, "c", 10, 11⟩]

/-- C1. The claim says a chain of consecutive comparison operators
parses to a single Compare node. On the token stream of `a < b < c`
the translated code instead consumes the first operator and right
operand and aborts on its unimplemented chained-comparison path, so no
Compare node is ever produced. -/
theorem c1_chained_comparison_panics :
    resErr (parse_statement 45 (mkParser c1_toks 9)) =
      some (.panicMsg "not implemented") := by
  rfl

/-- C2. The claim says no failure on a single bad statement aborts the
whole parse and the driver always reaches end-of-stream. On the token
stream of the single statement `a < b` the comparison path aborts the
process, the abort propagates through the module driver, and the parse
entry point returns no Module at all instead of recovering. -/
theorem c2_driver_aborts_on_comparison_statement :
    resErr (parse 45 (mkParser c2_toks 5)) = some (.panicMsg "not implemented") := by
  rfl

/-- C3. The claim says every produced node has `start` at its first
consumed token, `end` at its last consumed token, never reversed, and
children contained in parents. The conditional expression constructor
never closes its node: on `a if b else c` the IfExp node is
`[13, 0)` - its start is the offset after the whole expression, its
end is zero, the range is reversed, and no child range is contained
in it. -/
theorem c3_conditional_expression_span_reversed :
    resOk (parse 45 (mkParser c3_toks 13)) =
      some ⟨⟨0, 13⟩,
        [.ExpressionStatement (.IfExp ⟨13, 0⟩ (.Name ⟨5, 6⟩ "b")
          (.Name ⟨0, 1⟩ "a") (.Name ⟨12, 13⟩ "c"))]⟩
    ∧ (Node.mk 13 0).endOff < (Node.mk 13 0).start := by
  exact ⟨rfl, by decide⟩

/-- C4 counterexample. The claim says the single-element braced
display parses to a Set with that element. On the token stream of the
single-element display the translated code produces no expression: the
comma lookahead sends it into the dict parse, which fails with an
expected-colon diagnostic. -/
theorem c4_single_element_brace_display_not_set :
    resOk (parse_statement 45 (mkParser c4_single_toks 3)) = none
    ∧ resErr (parse_statement 45 (mkParser c4_single_toks 3)) =
        some (.diag (.ExpectToken ":" "brace close" ⟨2, 2⟩)) := by
  exact ⟨rfl, rfl⟩

/-- C4 amended. A braced display is disambiguated by peeking one token
past the first token after the opening brace for a comma: a dict with
one pair parses to a Dict, the empty display parses to an empty Dict,
a display whose second inner token is a comma parses to a Set, and the
single-element display fails with an expected-colon diagnostic. -/
theorem c4_brace_display_comma_peek_disambiguation :
    resOk (parse_statement 45 (mkParser c4_dict_toks 6)) =
      some (.ExpressionStatement (.Dict ⟨0, 6⟩
        [.Name ⟨1, 2⟩ "a"] [.Name ⟨4, 5⟩ "b"]))
    ∧ resOk (parse_statement 45 (mkParser c4_empty_toks 2)) =
        some (.ExpressionStatement (.Dict ⟨0, 2⟩ [] []))
    ∧ resOk (parse_statement 45 (mkParser c4_pair_toks 6)) =
        some (.ExpressionStatement (.Set ⟨0, 6⟩
          [.Name ⟨1, 2⟩ "a", .Name ⟨4, 5⟩ "b"]))
    ∧ resErr (parse_statement 45 (mkParser c4_single_toks 3)) =
        some (.diag (.ExpectToken ":" "brace close" ⟨2, 2⟩)) := by
  exact ⟨rfl, rfl, rfl, rfl⟩

/-- C5. The claim says a parenthesized one-element form with a
trailing comma is a one-element Tuple. The empty form does give an
empty Tuple and the plain one-element form gives the plain name, but
the comma loop records an element only after parsing one past a comma,
so on `(a,)` the trailing comma is consumed, no element follows, and
the translated code collapses the form to the plain Name instead of a
Tuple - against the comment in the source that a one-element form
with a trailing comma is a tuple. -/
theorem c5_trailing_comma_tuple_collapses :
    resOk (parse_statement 45 (mkParser c5_empty_toks 2)) =
      some (.ExpressionStatement (.Tuple ⟨0, 1⟩ []))
    ∧ resOk (parse_statement 45 (mkParser c5_plain_toks 3)) =
        some (.ExpressionStatement (.Name ⟨1, 2⟩ "a"))
    ∧ resOk (parse_statement 45 (mkParser c5_trailing_toks 4)) =
        some (.ExpressionStatement (.Name ⟨1, 2⟩ "a")) := by
  exact ⟨rfl, rfl, rfl⟩

/-- C6. The claim says the missing-default rule scans only up to the
star, so a keyword-only parameter without a default after a defaulted
positional parameter succeeds. The translated code keeps the
must-have-default flag across the star and rejects `a=1, *b, c` with
the missing-default condition; at the lambda level the rejection
surfaces as a process abort. The claim's two example conditions do
hold: `a=1, b` fails with the missing-default condition and `*a=1`
fails with the vararg-default condition. -/
theorem c6_default_rule_scans_past_star :
    resErr (parse_parameters 45 true (mkParser c6_kwonly_toks 13)) =
      some (.diag (.InvalidSyntax "non-default argument follows default argument"
        ⟨0, 10⟩))
    ∧ resErr (parse_statement 45 (mkParser c6_lambda_toks 20)) =
        some (.panicMsg "lambda params")
    ∧ resErr (parse_parameters 45 true (mkParser c6_missing_default_toks 9)) =
        some (.diag (.InvalidSyntax "non-default argument follows default argument"
          ⟨0, 6⟩))
    ∧ resErr (parse_parameters 45 true (mkParser c6_vararg_default_toks 7)) =
        some (.diag (.InvalidSyntax "var-positional argument cannot have default value"
          ⟨0, 4⟩)) := by
  exact ⟨rfl, rfl, rfl, rfl⟩

/-- C8. Adjacent plain string literal tokens concatenate into one
Constant, scanning past whitespace tokens, stopping at a line break
outside brackets, and crossing a line break when the bracket nesting
depth is positive. -/
theorem c8_string_literal_concatenation :
    resOk (parse_statement 45 (mkParser c8_adjacent_toks 7)) =
      some (.ExpressionStatement (.Constant ⟨0, 7⟩ (.Str "ab")))
    ∧ resOk (parse_statement 45 (mkParser c8_whitespace_toks 7)) =
        some (.ExpressionStatement (.Constant ⟨0, 7⟩ (.Str "ab")))
    ∧ resOk (parse_atom 45 (mkParser c8_newline_toks 7)) =
        some (.Constant ⟨0, 3⟩ (.Str "a"))
    ∧ resCurKind (parse_atom 45 (mkParser c8_newline_toks 7)) = .NewLine
    ∧ resOk (parse_atom 45 c8_nested_state) =
        some (.Constant ⟨0, 7⟩ (.Str "ab")) := by
  exact ⟨rfl, rfl, rfl, rfl, rfl⟩

/-- C9 counterexample. The claim says a clause's async flag is true
exactly when that clause's own `for` was preceded by `async`. Running
the clause parse as reached inside `(a async for b in c for d in e)`,
the second clause's `for` is not preceded by `async`, yet its flag
comes out true. -/
theorem c9_second_clause_async_flag :
    resOk (parse_comp_for 40 c9_async_state) =
      some [.mk ⟨9, 19⟩ (.Name ⟨13, 14⟩ "b") (.Name ⟨18, 19⟩ "c") [] true,
            .mk ⟨20, 30⟩ (.Name ⟨24, 25⟩ "d") (.Name ⟨29, 30⟩ "e") [] true] := by
  rfl

/-- C9 amended. The async marker is read once, before the first
clause, and its value is shared by every clause the parse produces:
with a leading `async` both clauses carry true, without it both carry
false, and an `async` before a later `for` is not consumed - the
clause loop stops in front of it, which then fails the enclosing
parenthesized form. -/
theorem c9_async_marker_read_once :
    resOk (parse_comp_for 40 c9_async_state) =
      some [.mk ⟨9, 19⟩ (.Name ⟨13, 14⟩ "b") (.Name ⟨18, 19⟩ "c") [] true,
            .mk ⟨20, 30⟩ (.Name ⟨24, 25⟩ "d") (.Name ⟨29, 30⟩ "e") [] true]
    ∧ resOk (parse_comp_for 40 c9_plain_state) =
        some [.mk ⟨3, 13⟩ (.Name ⟨7, 8⟩ "b") (.Name ⟨12, 13⟩ "c") [] false,
              .mk ⟨14, 24⟩ (.Name ⟨18, 19⟩ "d") (.Name ⟨23, 24⟩ "e") [] false]
    ∧ resCurKind (parse_comp_for 40 c9_mid_async_state) = .Async := by
  exact ⟨rfl, rfl, rfl⟩

/-- C7. In the call-argument loop, once a keyword argument or
double-star unpack has been seen, any state whose current token is a
bare positional starter (not the closing parenthesis, not a star or
double-star, not the head of a keyword argument) fails with the
keyword-before-positional condition; and concretely,
`func(a, b=c, *d)` parses to a Call with the starred argument after
the keyword while `func(b=c, a)` fails with that condition. -/
theorem c7_keyword_before_positional (fuel : Nat) (s : Parser)
    (h1 : s.cur_token.kind ≠ .RightParen)
    (h2 : s.cur_token.kind ≠ .Mul)
    (h3 : s.cur_token.kind ≠ .Pow)
    (h4 : ¬ (s.cur_token.kind = .Identifier ∧ s.peekTok.kind = .Assign)) :
    parse_call_args (fuel + 1) true s =
      .err (.diag (.ExpectToken "Positional argument after keyword argument"
        (kindStr s.cur_token.kind) ⟨s.cur_token.start, s.prev_token_end⟩)) s
    ∧ resOk (parse_statement 45 (mkParser c7_call_ok_toks 16)) =
        some (.ExpressionStatement (.Call ⟨0, 16⟩ (.Name ⟨0, 4⟩ "func")
          [.Name ⟨5, 6⟩ "a", .Starred ⟨13, 14⟩ (.Name ⟨14, 15⟩ "d")]
          [.mk ⟨8, 11⟩ (some "b") (.Name ⟨10, 11⟩ "c")] none none))
    ∧ resErr (parse_statement 45 (mkParser c7_call_bad_toks 12)) =
        some (.diag (.ExpectToken "Positional argument after keyword argument"
          "identifier" ⟨10, 9⟩)) := by
  refine ⟨?_, rfl, rfl⟩
  simp only [parse_call_args, PM_bind_apply, PM_pure_apply, at_kind, cur_kind,
    peek_kind, getP, throwP, decide_eq_false h1, Bool.false_eq_true, if_false,
    ite_false, if_neg h4, if_neg h2, if_neg h3, ite_true, if_true]

/-- C7 witness: the general part instantiated at the state on the
tokens of `func(b=c, a)`, whose current token is an identifier not
followed by an equals sign. -/
theorem c7_keyword_before_positional_witness :
    parse_call_args 6 true (mkParser c7_call_bad_toks 12) =
      .err (.diag (.ExpectToken "Positional argument after keyword argument"
        (kindStr (mkParser c7_call_bad_toks 12).cur_token.kind)
        ⟨(mkParser c7_call_bad_toks 12).cur_token.start,
         (mkParser c7_call_bad_toks 12).prev_token_end⟩))
        (mkParser c7_call_bad_toks 12)
    ∧ resOk (parse_statement 45 (mkParser c7_call_ok_toks 16)) =
        some (.ExpressionStatement (.Call ⟨0, 16⟩ (.Name ⟨0, 4⟩ "func")
          [.Name ⟨5, 6⟩ "a", .Starred ⟨13, 14⟩ (.Name ⟨14, 15⟩ "d")]
          [.mk ⟨8, 11⟩ (some "b") (.Name ⟨10, 11⟩ "c")] none none))
    ∧ resErr (parse_statement 45 (mkParser c7_call_bad_toks 12)) =
        some (.diag (.ExpectToken "Positional argument after keyword argument"
          "identifier" ⟨10, 9⟩)) :=
  c7_keyword_before_positional 5 (mkParser c7_call_bad_toks 12)
    (by decide) (by decide) (by decide) (by decide)

/-- C10. A BoolOp node is built only in binary form: an or-chain of
any positive length parses to a right-nested tree of BoolOp nodes
each holding exactly two values, and concretely `a or b or c` parses
to one BoolOp whose second value is itself a BoolOp, not one node
with three values. -/
theorem c10_boolop_binary_right_nested :
    (∀ (xs : List String) (m : Nat) (x : String),
      ∃ e, parse_or_test (m + (12 * xs.length + 14))
            (mkParser (orChainToks (x :: xs)) 0)
          = .ok e (mkParser [] 0) ∧ or_chain_shape e (x :: xs))
    ∧ resOk (parse_statement 45 (mkParser c10_toks 11)) =
        some (.ExpressionStatement (.BoolOp ⟨0, 11⟩ .Or
          [.Name ⟨0, 1⟩ "a",
           .BoolOp ⟨5, 11⟩ .Or [.Name ⟨5, 6⟩ "b", .Name ⟨10, 11⟩ "c"]])) := by
  exact ⟨or_chain_parses, rfl⟩

end Enderpy
